import Mathlib

/-!
Verification of the opencollective-api excerpts: the activity sanitizer
(`sanitizeActivity`), the Account GraphQL interface resolvers for
transactions and orders, and the LegalDocument creation contract.

JavaScript objects handled by the sanitizer are modelled by the nested
`Value` type; lodash `pick` with dotted paths is modelled by `pick`,
built from `getPath` (lodash `get`/`hasIn`) and `setPath` (lodash `set`).
-/

/-- A JavaScript value as handled by the sanitizer: null, booleans,
numbers, strings, and objects given as ordered association lists. -/
inductive Value where
  | vnull : Value
  | vbool (b : Bool) : Value
  | vnum (n : Int) : Value
  | vstr (s : String) : Value
  | vobj (fields : List (String × Value)) : Value

/-- Whether a value is an object (lodash `isObject` on plain objects). -/
def Value.isObjV : Value → Bool
  | .vobj _ => true
  | _ => false

/-- Assignment of a key in an ordered association list: replaces the value
of an existing key in place, otherwise appends the pair at the end, which
is how assignment behaves on a JavaScript object's own keys. -/
def setField : List (String × Value) → String → Value → List (String × Value)
  | [], k, v => [(k, v)]
  | (k', v') :: rest, k, v =>
    if k' == k then (k, v) :: rest else (k', v') :: setField rest k v

/-- Property access on an object's ordered association list. -/
def lookupField : List (String × Value) → String → Option Value
  | [], _ => none
  | (k', v') :: rest, k => if k' == k then some v' else lookupField rest k

/-- Lodash `get` on an explicit path: walks the path through nested
objects, `none` when the path is absent (JavaScript `undefined`). -/
def getPath : Value → List String → Option Value
  | v, [] => some v
  | v, k :: rest =>
    match v with
    | .vobj fields =>
      match lookupField fields k with
      | some c => getPath c rest
      | none => none
    | _ => none

/-- The intermediate container lodash `set` descends into: the existing
child when it is an object, otherwise a fresh empty object. -/
def setChild : Option Value → Value
  | some c => if c.isObjV then c else Value.vobj []
  | none => Value.vobj []

/-- Lodash `set` on an explicit path: walks the path, replacing a missing
or non-object intermediate with a fresh empty object, and assigns the
value at the last key. A non-object root is returned unchanged. -/
def setPath : Value → List String → Value → Value
  | v, [], _ => v
  | v, k :: rest, nv =>
    match v with
    | .vobj fields =>
      match rest with
      | [] => .vobj (setField fields k nv)
      | _ :: _ =>
        .vobj (setField fields k (setPath (setChild (lookupField fields k)) rest nv))
    | _ => v

/-- One step of lodash `pick`: copy the source value at one path into the
accumulator when the path exists in the source. -/
def pickStep (src : Value) (acc : Value) (p : List String) : Value :=
  match getPath src p with
  | some x => setPath acc p x
  | none => acc

/-- Lodash `pick(object, paths)`: start from an empty object and copy each
path that exists in the source. -/
def pick (src : Value) (paths : List (List String)) : Value :=
  paths.foldl (pickStep src) (Value.vobj [])

/-- Splitting a character list on dots, accumulating the current segment
in reverse. -/
def splitOnDotAux : List Char → List Char → List String
  | [], acc => [String.mk acc.reverse]
  | c :: cs, acc =>
    if c == '.' then String.mk acc.reverse :: splitOnDotAux cs []
    else splitOnDotAux cs (c :: acc)

/-- Lodash `toPath` restricted to dot-separated keys, which is the only
form the sanitizer uses. -/
def toPath (s : String) : List String := splitOnDotAux s.toList []

/-- Whether a path list extends another, i.e. the second is a prefix of
the first. -/
def pathStartsWith : List String → List String → Bool
  | _, [] => true
  | [], _ :: _ => false
  | a :: as, b :: bs => a == b && pathStartsWith as bs

/-- Two paths are disjoint when neither is a prefix of the other. -/
def pathDisjoint (p q : List String) : Bool :=
  !(pathStartsWith p q || pathStartsWith q p)

namespace activities

/-- Modelled from the spec: the activity type constant imported from
`../constants`, which is not among the provided sources; the spec names
the transaction-created type. -/
def COLLECTIVE_TRANSACTION_CREATED : String := "collective.transaction.created"

/-- Modelled from the spec: the activity type constant imported from
`../constants`, which is not among the provided sources; the spec names
the update-published type. -/
def COLLECTIVE_UPDATE_PUBLISHED : String := "collective.update.published"

/-- Modelled from the spec: the activity type constant imported from
`../constants`, which is not among the provided sources; the spec names
the expense-created type. -/
def COLLECTIVE_EXPENSE_CREATED : String := "collective.expense.created"

end activities

/-- The allowlist of `data` paths for a transaction-created activity. -/
def transactionCreatedPickList : List String :=
  ["fromCollective.type", "fromCollective.name", "fromCollective.image",
   "fromCollective.slug", "transaction.amount", "transaction.currency"]

/-- The allowlist of `data` paths for an update-published activity. -/
def updatePublishedPickList : List String :=
  ["update.html", "update.title", "update.slug", "update.tags", "update.isPrivate"]

/-- The allowlist of `data` paths for an expense-created activity. -/
def expenseCreatedPickList : List String :=
  ["fromCollective.type", "fromCollective.name", "fromCollective.image",
   "fromCollective.slug", "expense.id", "expense.description",
   "expense.amount", "expense.currency"]

/-- JavaScript strict equality of a possibly absent value against a string
constant: true exactly when the value is that string. -/
def isTypeTag : Option Value → String → Bool
  | some (.vstr s), c => s == c
  | _, _ => false

/-- The `data` field of the activity as passed to `pick`: an absent field
gives a value on which every nonempty path lookup fails, matching lodash
`pick(undefined, paths) = \x7b\x7d`. -/
def activityDataField (activity : Value) : Value :=
  match getPath activity ["data"] with
  | some v => v
  | none => Value.vnull

/-- The sanitizer: keep only the common top-level fields, then project
`data` through the per-type allowlist, defaulting to an empty object. -/
def sanitizeActivity (activity : Value) : Value :=
  let cleanActivity := pick activity (["createdAt", "id", "type", "CollectiveId"].map toPath)
  let type := getPath cleanActivity ["type"]
  let data :=
    if isTypeTag type activities.COLLECTIVE_TRANSACTION_CREATED then
      pick (activityDataField activity) (transactionCreatedPickList.map toPath)
    else if isTypeTag type activities.COLLECTIVE_UPDATE_PUBLISHED then
      pick (activityDataField activity) (updatePublishedPickList.map toPath)
    else if isTypeTag type activities.COLLECTIVE_EXPENSE_CREATED then
      pick (activityDataField activity) (expenseCreatedPickList.map toPath)
    else
      Value.vobj []
  setPath cleanActivity ["data"] data

/-! Account interface resolvers. The relational store is modelled as
lists of rows; Sequelize `findAndCountAll` filters by the `where`
structure, sorts by the chronological order argument, then applies
offset and limit to the rows while counting all matches. -/

/-- A collective row as seen by the Account field resolvers. -/
structure Collective where
  id : Int
  createdAt : Int
  updatedAt : Option Int
deriving DecidableEq

/-- The `ChronologicalOrder` input: a sort field and a direction. -/
structure ChronologicalOrderInput where
  field : String
  direction : String
deriving DecidableEq

/-- A transaction row: the columns the transactions resolver touches. -/
structure Transaction where
  id : Int
  CollectiveId : Int
  type : String
  createdAt : Int
deriving DecidableEq

/-- A tier row: the columns the tierSlug lookup touches. -/
structure Tier where
  id : Int
  CollectiveId : Int
  slug : String
deriving DecidableEq

/-- An order row: the columns the orders resolver touches. -/
structure Order where
  id : Int
  CollectiveId : Int
  FromCollectiveId : Int
  status : String
  TierId : Option Int
  createdAt : Int
deriving DecidableEq

/-- The result of Sequelize `findAndCountAll`: the count of all matching
rows and the page of rows. -/
structure FindAndCountResult (α : Type) where
  count : Nat
  rows : List α
deriving DecidableEq

/-- Insertion of an element into a sorted list, before the first element
it compares at-or-before; keeps equal keys in their original order. -/
def insertSorted {α : Type} (le : α → α → Bool) (a : α) : List α → List α
  | [] => [a]
  | b :: rest => if le a b then a :: b :: rest else b :: insertSorted le a rest

/-- A stable insertion sort, standing in for the store's ORDER BY. -/
def insertionSort {α : Type} (le : α → α → Bool) : List α → List α
  | [] => []
  | a :: rest => insertSorted le a (insertionSort le rest)

/-- Sorting by the chronological order argument, using the row's
`createdAt` column. -/
def applyChronologicalOrder {α : Type} (createdAt : α → Int)
    (ob : ChronologicalOrderInput) (rows : List α) : List α :=
  if ob.direction == "DESC" then
    insertionSort (fun a b => decide (createdAt b ≤ createdAt a)) rows
  else
    insertionSort (fun a b => decide (createdAt a ≤ createdAt b)) rows

/-- The `where` object built by the transactions resolver: the owning
collective id, plus the type filter when the `type` argument is given. -/
structure TransactionWhere where
  CollectiveId : Int
  type : Option String := none
deriving DecidableEq

/-- Whether a transaction row satisfies the transactions `where` object. -/
def TransactionWhere.matches (w : TransactionWhere) (t : Transaction) : Bool :=
  t.CollectiveId == w.CollectiveId &&
    (match w.type with
     | some ty => t.type == ty
     | none => true)

/-- Arguments of the transactions field, with the schema's defaults. -/
structure TransactionsArgs where
  type : Option String := none
  limit : Int := 100
  offset : Int := 0
  orderBy : ChronologicalOrderInput := { field := "createdAt", direction := "DESC" }
deriving DecidableEq

/-- Sequelize `findAndCountAll` over the transaction store. -/
def findAndCountAllTransactions (w : TransactionWhere) (ob : ChronologicalOrderInput)
    (lim off : Int) (db : List Transaction) : FindAndCountResult Transaction :=
  let filtered := db.filter (fun t => TransactionWhere.matches w t)
  let ordered := applyChronologicalOrder (fun t => t.createdAt) ob filtered
  { count := filtered.length, rows := (ordered.drop off.toNat).take lim.toNat }

/-- The page returned by the transactions resolver. Modelled from the
spec: the `TransactionCollection` GraphQL type, which is not among the
provided sources, exposes the query result's count and rows as
`totalCount` and `items`. -/
structure TransactionPage where
  limit : Int
  offset : Int
  totalCount : Nat
  items : List Transaction
deriving DecidableEq

/-- The transactions resolver: filter by owning collective and optional
type, query with limit/offset/order, and return the page. -/
def accountTransactionsResolve (collective : Collective) (args : TransactionsArgs)
    (db : List Transaction) : TransactionPage :=
  let w : TransactionWhere :=
    match args.type with
    | some ty => { CollectiveId := collective.id, type := some ty }
    | none => { CollectiveId := collective.id }
  let result := findAndCountAllTransactions w args.orderBy args.limit args.offset db
  { limit := args.limit, offset := args.offset,
    totalCount := result.count, items := result.rows }

/-- Arguments of the orders field, with the schema's defaults. -/
structure OrdersArgs where
  sent : Bool := true
  received : Bool := true
  limit : Int := 100
  offset : Int := 0
  status : Option (List String) := none
  tierSlug : Option String := none
  orderBy : ChronologicalOrderInput := { field := "createdAt", direction := "DESC" }
deriving DecidableEq

/-- The collective-id part of the orders `where` object: the `Op.or`
clause over both id columns, or a single-column equality. -/
inductive OrderBaseWhere where
  | orClause (collectiveId fromCollectiveId : Int) : OrderBaseWhere
  | fromOnly (fromCollectiveId : Int) : OrderBaseWhere
  | collectiveOnly (collectiveId : Int) : OrderBaseWhere
deriving DecidableEq

/-- Whether an order row satisfies the collective-id part of the `where`
object. -/
def OrderBaseWhere.matches : OrderBaseWhere → Order → Bool
  | .orClause cid fcid, o => o.CollectiveId == cid || o.FromCollectiveId == fcid
  | .fromOnly fcid, o => o.FromCollectiveId == fcid
  | .collectiveOnly cid, o => o.CollectiveId == cid

/-- The full orders `where` object: the collective-id part plus the
optional `Op.in` status clause and the optional `TierId` equality. -/
structure OrderWhere where
  base : OrderBaseWhere
  status : Option (List String) := none
  tierId : Option Int := none
deriving DecidableEq

/-- Whether an order row satisfies the full orders `where` object. -/
def OrderWhere.matches (w : OrderWhere) (o : Order) : Bool :=
  OrderBaseWhere.matches w.base o &&
    (match w.status with
     | some statuses => statuses.contains o.status
     | none => true) &&
    (match w.tierId with
     | some tid => o.TierId == some tid
     | none => true)

/-- The errors thrown by the orders resolver; both are `NotFound`. -/
inductive ResolverError where
  | notFound (message : String) : ResolverError
deriving DecidableEq

/-- The collective-id part of the orders `where` object, as built by the
resolver from the `sent` and `received` arguments; when neither is set
the resolver throws `NotFound` before touching the store. -/
def ordersBaseWhere (collective : Collective) (args : OrdersArgs) :
    Except ResolverError OrderBaseWhere :=
  if args.sent && args.received then
    Except.ok (OrderBaseWhere.orClause collective.id collective.id)
  else if args.sent then
    Except.ok (OrderBaseWhere.fromOnly collective.id)
  else if args.received then
    Except.ok (OrderBaseWhere.collectiveOnly collective.id)
  else
    Except.error (ResolverError.notFound "At least one of `sent` or `received` needs to be true.")

/-- The status clause: present when the `status` argument is given and
nonempty, mirroring `args.status && args.status.length > 0`. -/
def ordersStatusFilter (args : OrdersArgs) : Option (List String) :=
  match args.status with
  | some statuses => if 0 < statuses.length then some statuses else none
  | none => none

/-- JavaScript `toLowerCase` on slugs: lowercase every character. -/
def strToLower (s : String) : String := String.mk (s.data.map Char.toLower)

/-- The tier lookup: when a truthy (nonempty) `tierSlug` is given it is
lowercased and resolved with `Tier.findOne` scoped to the collective;
an unresolvable slug throws `NotFound`. -/
def tierIdLookup (collective : Collective) (args : OrdersArgs) (tiers : List Tier) :
    Except ResolverError (Option Int) :=
  match args.tierSlug with
  | some slug =>
    if slug ≠ "" then
      match tiers.find? (fun t => t.CollectiveId == collective.id && t.slug == strToLower slug) with
      | some tier => Except.ok (some tier.id)
      | none => Except.error (ResolverError.notFound "TierSlug Not Found")
    else Except.ok none
  | none => Except.ok none

/-- The complete `where` object built by the orders resolver, or the
error thrown while building it. -/
def ordersQueryWhere (collective : Collective) (args : OrdersArgs) (tiers : List Tier) :
    Except ResolverError OrderWhere :=
  match ordersBaseWhere collective args with
  | Except.error e => Except.error e
  | Except.ok base =>
    match tierIdLookup collective args tiers with
    | Except.error e => Except.error e
    | Except.ok tid =>
      Except.ok { base := base, status := ordersStatusFilter args, tierId := tid }

/-- Sequelize `findAndCountAll` over the order store. -/
def findAndCountAllOrders (w : OrderWhere) (ob : ChronologicalOrderInput)
    (lim off : Int) (db : List Order) : FindAndCountResult Order :=
  let filtered := db.filter (fun o => OrderWhere.matches w o)
  let ordered := applyChronologicalOrder (fun o => o.createdAt) ob filtered
  { count := filtered.length, rows := (ordered.drop off.toNat).take lim.toNat }

/-- The page returned by the orders resolver. Modelled from the spec: the
`OrderCollection` GraphQL type, which is not among the provided sources,
exposes the query result's count and rows as `totalCount` and `items`. -/
structure OrderPage where
  limit : Int
  offset : Int
  totalCount : Nat
  items : List Order
deriving DecidableEq

/-- The orders resolver: build the `where` object (possibly throwing
`NotFound`), query with limit/offset/order, and return the page. -/
def accountOrdersResolve (collective : Collective) (args : OrdersArgs)
    (tiers : List Tier) (db : List Order) : Except ResolverError OrderPage :=
  match ordersQueryWhere collective args tiers with
  | Except.error e => Except.error e
  | Except.ok w =>
    let result := findAndCountAllOrders w args.orderBy args.limit args.offset db
    Except.ok { limit := args.limit, offset := args.offset,
                totalCount := result.count, items := result.rows }

/-- The `updatedAt` field resolver of the Account interface:
`collective.updatedAt || collective.createdAt`, where a date is always
truthy and a null or absent column is falsy. -/
def updatedAtResolve (collective : Collective) : Int :=
  match collective.updatedAt with
  | some d => d
  | none => collective.createdAt

/-! LegalDocument creation. The model itself is not among the provided
sources (only its test is), so it is modelled from the spec. -/

/-- A collective row as referenced by a legal document. -/
structure CollectiveRow where
  id : Int
deriving DecidableEq

/-- The values passed to `LegalDocument.create`; either reference may be
missing. -/
structure LegalDocumentValues where
  year : String
  HostCollectiveId : Option Int := none
  CollectiveId : Option Int := none
deriving DecidableEq

/-- A persisted legal document row. -/
structure LegalDocumentRow where
  HostCollectiveId : Int
  CollectiveId : Int
  year : String
deriving DecidableEq

/-- A Sequelize validation error raised on record creation. -/
inductive SequelizeValidationError where
  | validationError (message : String) : SequelizeValidationError
deriving DecidableEq

/-- The store the LegalDocument model writes to. -/
structure ModelsDB where
  collectives : List CollectiveRow
  legalDocuments : List LegalDocumentRow
deriving DecidableEq

/-- Modelled from the spec: the LegalDocument Sequelize model is not
among the provided sources; per the spec, creation requires
`HostCollectiveId` and `CollectiveId` referencing existing collective
rows, fails with a validation error when a constraint is violated, and
otherwise succeeds and makes the record queryable. -/
def LegalDocument.create (db : ModelsDB) (doc : LegalDocumentValues) :
    Except SequelizeValidationError ModelsDB :=
  match doc.HostCollectiveId, doc.CollectiveId with
  | some hostId, some collectiveId =>
    if db.collectives.any (fun c => c.id == hostId) &&
       db.collectives.any (fun c => c.id == collectiveId) then
      Except.ok { db with
        legalDocuments := db.legalDocuments ++
          [{ HostCollectiveId := hostId, CollectiveId := collectiveId, year := doc.year }] }
    else
      Except.error (SequelizeValidationError.validationError "foreign key constraint violated")
  | _, _ =>
    Except.error (SequelizeValidationError.validationError "notNull violation")

/-! Concrete sample rows used to instantiate the theorems below. -/

/-- A sample collective row. -/
def sampleCollective : Collective := { id := 1, createdAt := 5, updatedAt := none }

/-- The orders arguments with all schema defaults. -/
def sampleOrdersArgs : OrdersArgs := {}

/-- The transactions arguments with all schema defaults. -/
def sampleTransactionsArgs : TransactionsArgs := {}

/-- A sample order row originated by the sample collective. -/
def sampleOrder : Order :=
  { id := 7, CollectiveId := 2, FromCollectiveId := 1, status := "PAID",
    TierId := none, createdAt := 3 }

/-- A sample transaction-created activity carrying both allowlisted and
non-allowlisted fields. -/
def sampleActivity : Value :=
  Value.vobj
    [("id", Value.vnum 1),
     ("type", Value.vstr "collective.transaction.created"),
     ("UserId", Value.vnum 9),
     ("data", Value.vobj
       [("fromCollective", Value.vobj
         [("name", Value.vstr "babel"), ("balance", Value.vnum 50)]),
        ("transaction", Value.vobj
         [("amount", Value.vnum 100), ("paymentMethod", Value.vstr "card")])])]

/-- A sample store with two collective rows and no legal documents. -/
def sampleDB : ModelsDB :=
  { collectives := [{ id := 1 }, { id := 2 }], legalDocuments := [] }

/-- Sample legal-document values referencing both sample collectives. -/
def sampleDoc : LegalDocumentValues :=
  { year := "2019", HostCollectiveId := some 1, CollectiveId := some 2 }

/-! Lemmas about the object-path operations. -/

theorem lookupField_setField_same (fs : List (String × Value)) (k : String) (v : Value) :
    lookupField (setField fs k v) k = some v := by
  induction fs with
  | nil => simp [setField, lookupField]
  | cons hd tl ih =>
    obtain ⟨k', v'⟩ := hd
    by_cases h : k' = k
    · subst h
      simp [setField, lookupField]
    · simp only [setField, beq_iff_eq, h, if_false, lookupField, ih]

theorem lookupField_setField_other (fs : List (String × Value)) (k k' : String) (v : Value)
    (h : k' ≠ k) : lookupField (setField fs k v) k' = lookupField fs k' := by
  induction fs with
  | nil => simp [setField, lookupField, beq_iff_eq, Ne.symm h]
  | cons hd tl ih =>
    obtain ⟨k0, v0⟩ := hd
    by_cases h0 : k0 = k
    · subst h0
      simp only [setField, beq_iff_eq, if_true, lookupField, Ne.symm h, if_false]
    · simp only [setField, beq_iff_eq, h0, if_false, lookupField, ih]

theorem isObjV_setChild (o : Option Value) : (setChild o).isObjV = true := by
  cases o with
  | none => rfl
  | some c => cases c <;> simp [setChild, Value.isObjV]

theorem isObjV_setPath (acc : Value) (p : List String) (x : Value)
    (hacc : acc.isObjV = true) : (setPath acc p x).isObjV = true := by
  cases acc with
  | vobj fields =>
    cases p with
    | nil => exact hacc
    | cons k rest => cases rest <;> rfl
  | vnull => simp [Value.isObjV] at hacc
  | vbool b => simp [Value.isObjV] at hacc
  | vnum n => simp [Value.isObjV] at hacc
  | vstr s => simp [Value.isObjV] at hacc

theorem getPath_vobj_nil_ne (p : List String) (hp : p ≠ []) :
    getPath (Value.vobj []) p = none := by
  cases p with
  | nil => exact absurd rfl hp
  | cons k rest => simp [getPath, lookupField]

theorem getPath_nonobj (v : Value) (p : List String) (hv : v.isObjV = false)
    (hp : p ≠ []) : getPath v p = none := by
  cases p with
  | nil => exact absurd rfl hp
  | cons k rest => cases v <;> simp_all [getPath, Value.isObjV]

theorem pathStartsWith_refl (p : List String) : pathStartsWith p p = true := by
  induction p with
  | nil => rfl
  | cons a as ih => simp [pathStartsWith, ih]

theorem pathDisjoint_ne_nil_left (p q : List String) (h : pathDisjoint p q = true) :
    p ≠ [] := by
  intro hp
  subst hp
  cases q <;> simp [pathDisjoint, pathStartsWith] at h

theorem pathDisjoint_ne_nil_right (p q : List String) (h : pathDisjoint p q = true) :
    q ≠ [] := by
  intro hq
  subst hq
  cases p <;> simp [pathDisjoint, pathStartsWith] at h

theorem pathDisjoint_self_false (p : List String) :
    pathDisjoint p p = false := by
  simp [pathDisjoint, pathStartsWith_refl]

theorem pathDisjoint_cons (a : String) (p q : List String)
    (h : pathDisjoint (a :: p) (a :: q) = true) : pathDisjoint p q = true := by
  simp only [pathDisjoint, pathStartsWith, beq_self_eq_true, Bool.true_and] at h ⊢
  exact h

theorem getPath_setPath_same (p : List String) (acc x : Value)
    (hacc : acc.isObjV = true) (hp : p ≠ []) :
    getPath (setPath acc p x) p = some x := by
  induction p generalizing acc with
  | nil => exact absurd rfl hp
  | cons k rest ih =>
    cases acc with
    | vobj fields =>
      cases rest with
      | nil =>
        simp [setPath, getPath, lookupField_setField_same]
      | cons r rs =>
        show getPath (Value.vobj (setField fields k
          (setPath (setChild (lookupField fields k)) (r :: rs) x))) (k :: r :: rs) = some x
        simp only [getPath, lookupField_setField_same]
        exact ih (setChild (lookupField fields k)) (isObjV_setChild _) (by simp)
    | vnull => simp [Value.isObjV] at hacc
    | vbool b => simp [Value.isObjV] at hacc
    | vnum n => simp [Value.isObjV] at hacc
    | vstr s => simp [Value.isObjV] at hacc

theorem getPath_setPath_disj (q p : List String) (acc x : Value)
    (hd : pathDisjoint p q = true) :
    getPath (setPath acc q x) p = getPath acc p := by
  induction q generalizing p acc with
  | nil => exact absurd rfl (pathDisjoint_ne_nil_right p [] hd)
  | cons k qrest ih =>
    cases p with
    | nil => exact absurd rfl (pathDisjoint_ne_nil_left [] (k :: qrest) hd)
    | cons j prest =>
      cases acc with
      | vnull => rfl
      | vbool b => rfl
      | vnum n => rfl
      | vstr s => rfl
      | vobj fields =>
        by_cases hjk : j = k
        · subst hjk
          cases qrest with
          | nil =>
            simp [pathDisjoint, pathStartsWith] at hd
          | cons r rs =>
            have hd' : pathDisjoint prest (r :: rs) = true := pathDisjoint_cons j prest (r :: rs) hd
            have hpne : prest ≠ [] := pathDisjoint_ne_nil_left prest (r :: rs) hd'
            show getPath (Value.vobj (setField fields j
              (setPath (setChild (lookupField fields j)) (r :: rs) x))) (j :: prest) =
              getPath (Value.vobj fields) (j :: prest)
            simp only [getPath, lookupField_setField_same]
            rw [ih prest (setChild (lookupField fields j)) hd']
            cases hlf : lookupField fields j with
            | none => simp [setChild, getPath_vobj_nil_ne prest hpne]
            | some c =>
              cases hobj : c.isObjV with
              | true => simp [setChild, hobj]
              | false =>
                simp [setChild, hobj, getPath_vobj_nil_ne prest hpne,
                  getPath_nonobj c prest hobj hpne]
        · cases qrest with
          | nil =>
            show getPath (Value.vobj (setField fields k x)) (j :: prest) =
              getPath (Value.vobj fields) (j :: prest)
            simp only [getPath, lookupField_setField_other fields k j x hjk]
          | cons r rs =>
            show getPath (Value.vobj (setField fields k
              (setPath (setChild (lookupField fields k)) (r :: rs) x))) (j :: prest) =
              getPath (Value.vobj fields) (j :: prest)
            simp only [getPath, lookupField_setField_other fields k j _ hjk]

theorem isObjV_pickStep (src acc : Value) (q : List String)
    (hacc : acc.isObjV = true) : (pickStep src acc q).isObjV = true := by
  unfold pickStep
  cases getPath src q with
  | none => exact hacc
  | some x => exact isObjV_setPath acc q x hacc

theorem isObjV_foldl_pickStep (src : Value) (ps : List (List String)) (acc : Value)
    (hacc : acc.isObjV = true) : (ps.foldl (pickStep src) acc).isObjV = true := by
  induction ps generalizing acc with
  | nil => exact hacc
  | cons q ps' ih => exact ih (pickStep src acc q) (isObjV_pickStep src acc q hacc)

theorem getPath_foldl_pickStep (src : Value) (ps : List (List String)) (acc : Value)
    (p : List String) (hacc : acc.isObjV = true) (hp : p ≠ [])
    (hdisj : ∀ q ∈ ps, q = p ∨ pathDisjoint p q = true) :
    getPath (ps.foldl (pickStep src) acc) p =
      if p ∈ ps ∧ (getPath src p).isSome then getPath src p else getPath acc p := by
  induction ps generalizing acc with
  | nil => simp
  | cons q ps' ih =>
    have hq := hdisj q (List.mem_cons_self q ps')
    have hdisj' : ∀ q' ∈ ps', q' = p ∨ pathDisjoint p q' = true :=
      fun q' hq' => hdisj q' (List.mem_cons_of_mem q hq')
    have hacc' : (pickStep src acc q).isObjV = true := isObjV_pickStep src acc q hacc
    rw [List.foldl_cons, ih (pickStep src acc q) hacc' hdisj']
    rcases hq with hq | hq
    · subst hq
      cases hg : getPath src q with
      | none =>
        have hstep : pickStep src acc q = acc := by simp [pickStep, hg]
        rw [hstep]
        simp [hg]
      | some x =>
        have hstep : pickStep src acc q = setPath acc q x := by simp [pickStep, hg]
        rw [hstep]
        have hset : getPath (setPath acc q x) q = some x := getPath_setPath_same q acc x hacc hp
        by_cases hmem : q ∈ ps'
        · simp [hmem, hg, hset]
        · simp [hmem, hg, hset, List.mem_cons]
    · have hne : p ≠ q := by
        intro he
        subst he
        rw [pathDisjoint_self_false p] at hq
        exact Bool.false_ne_true hq
      have hstep : getPath (pickStep src acc q) p = getPath acc p := by
        unfold pickStep
        cases hg : getPath src q with
        | none => rfl
        | some x => exact getPath_setPath_disj q p acc x hq
      rw [hstep]
      by_cases hmem : p ∈ ps'
      · simp [hmem, List.mem_cons]
      · simp [hmem, List.mem_cons, hne]

theorem getPath_pick_mem (src : Value) (ps : List (List String)) (p : List String)
    (hp : p ≠ []) (hmem : p ∈ ps)
    (hdisj : ∀ q ∈ ps, q = p ∨ pathDisjoint p q = true) :
    getPath (pick src ps) p = getPath src p := by
  unfold pick
  rw [getPath_foldl_pickStep src ps (Value.vobj []) p rfl hp hdisj]
  cases hg : getPath src p with
  | none => simp [hg, getPath_vobj_nil_ne p hp]
  | some x => simp [hmem, hg]

theorem getPath_pick_disj (src : Value) (ps : List (List String)) (p : List String)
    (hp : p ≠ []) (hdisj : ∀ q ∈ ps, pathDisjoint p q = true) :
    getPath (pick src ps) p = none := by
  unfold pick
  have hmem : p ∉ ps := by
    intro hmem
    have := hdisj p hmem
    rw [pathDisjoint_self_false p] at this
    exact Bool.false_ne_true this
  rw [getPath_foldl_pickStep src ps (Value.vobj []) p rfl hp
    (fun q hq => Or.inr (hdisj q hq))]
  simp [hmem, getPath_vobj_nil_ne p hp]

theorem isObjV_pick (src : Value) (ps : List (List String)) :
    (pick src ps).isObjV = true :=
  isObjV_foldl_pickStep src ps (Value.vobj []) rfl

theorem pathDisjoint_singleton (k c : String) (h : k ≠ c) :
    pathDisjoint [k] [c] = true := by
  simp [pathDisjoint, pathStartsWith, beq_iff_eq, h, Ne.symm h]

theorem getPath_clean_type (a : Value) :
    getPath (pick a (["createdAt", "id", "type", "CollectiveId"].map toPath)) ["type"] =
      getPath a ["type"] := by
  apply getPath_pick_mem
  · simp
  · decide
  · decide

theorem sanitize_data_of_type (a : Value) (t : String)
    (htype : getPath a ["type"] = some (Value.vstr t)) :
    getPath (sanitizeActivity a) ["data"] = some (
      if t == activities.COLLECTIVE_TRANSACTION_CREATED then
        pick (activityDataField a) (transactionCreatedPickList.map toPath)
      else if t == activities.COLLECTIVE_UPDATE_PUBLISHED then
        pick (activityDataField a) (updatePublishedPickList.map toPath)
      else if t == activities.COLLECTIVE_EXPENSE_CREATED then
        pick (activityDataField a) (expenseCreatedPickList.map toPath)
      else Value.vobj []) := by
  simp only [sanitizeActivity, getPath_clean_type, htype, isTypeTag]
  rw [getPath_setPath_same _ _ _ (isObjV_pick _ _) (by simp)]

theorem getPath_pick_allowlist (src : Value) (A : List String)
    (hpw : ∀ s ∈ A, toPath s ≠ [] ∧
      ∀ s' ∈ A, toPath s' = toPath s ∨ pathDisjoint (toPath s) (toPath s') = true) :
    ∀ s ∈ A, getPath (pick src (A.map toPath)) (toPath s) = getPath src (toPath s) := by
  intro s hs
  obtain ⟨hne, hdis⟩ := hpw s hs
  apply getPath_pick_mem src _ _ hne (List.mem_map_of_mem toPath hs)
  intro q hq
  rcases List.mem_map.mp hq with ⟨s', hs', rfl⟩
  exact hdis s' hs'

theorem getPath_pick_allowlist_disj (src : Value) (A : List String) (p : List String)
    (hp : p ≠ []) (hdisj : ∀ s ∈ A, pathDisjoint p (toPath s) = true) :
    getPath (pick src (A.map toPath)) p = none := by
  apply getPath_pick_disj src _ p hp
  intro q hq
  rcases List.mem_map.mp hq with ⟨s', hs', rfl⟩
  exact hdisj s' hs'

/-- C4: for each of the three known activity types, the sanitized
activity's `data` object agrees with the input activity's `data` on every
path of the per-type allowlist, so it contains exactly the allowlisted
keys present in the input, and it is empty on every path disjoint from
the allowlist, so it contains no other keys. -/
theorem sanitizeActivity_known_types_exact (a : Value) (t : String) (A : List String)
    (hmem : (t, A) ∈ [(activities.COLLECTIVE_TRANSACTION_CREATED, transactionCreatedPickList),
                      (activities.COLLECTIVE_UPDATE_PUBLISHED, updatePublishedPickList),
                      (activities.COLLECTIVE_EXPENSE_CREATED, expenseCreatedPickList)])
    (htype : getPath a ["type"] = some (Value.vstr t)) :
    ∃ d, getPath (sanitizeActivity a) ["data"] = some d ∧
      (∀ s ∈ A, getPath d (toPath s) = getPath (activityDataField a) (toPath s)) ∧
      (∀ p, p ≠ [] → (∀ s ∈ A, pathDisjoint p (toPath s) = true) → getPath d p = none) := by
  have hdata := sanitize_data_of_type a t htype
  simp only [List.mem_cons, List.not_mem_nil, or_false] at hmem
  rcases hmem with hmem | hmem | hmem <;> rw [Prod.mk.injEq] at hmem <;>
    obtain ⟨rfl, rfl⟩ := hmem
  · simp only [beq_self_eq_true, if_true] at hdata
    exact ⟨_, hdata, getPath_pick_allowlist _ _ (by decide),
      fun p hp hdisj => getPath_pick_allowlist_disj _ _ p hp hdisj⟩
  · have e1 : (activities.COLLECTIVE_UPDATE_PUBLISHED ==
        activities.COLLECTIVE_TRANSACTION_CREATED) = false := by decide
    simp only [e1, Bool.false_eq_true, if_false, beq_self_eq_true, if_true] at hdata
    exact ⟨_, hdata, getPath_pick_allowlist _ _ (by decide),
      fun p hp hdisj => getPath_pick_allowlist_disj _ _ p hp hdisj⟩
  · have e1 : (activities.COLLECTIVE_EXPENSE_CREATED ==
        activities.COLLECTIVE_TRANSACTION_CREATED) = false := by decide
    have e2 : (activities.COLLECTIVE_EXPENSE_CREATED ==
        activities.COLLECTIVE_UPDATE_PUBLISHED) = false := by decide
    simp only [e1, e2, Bool.false_eq_true, if_false, beq_self_eq_true, if_true] at hdata
    exact ⟨_, hdata, getPath_pick_allowlist _ _ (by decide),
      fun p hp hdisj => getPath_pick_allowlist_disj _ _ p hp hdisj⟩

/-- C5: for every activity whose type is not one of the three known
activity types, the sanitized `data` field is the empty object. -/
theorem sanitizeActivity_unknown_type_empty (a : Value)
    (h1 : isTypeTag (getPath a ["type"]) activities.COLLECTIVE_TRANSACTION_CREATED = false)
    (h2 : isTypeTag (getPath a ["type"]) activities.COLLECTIVE_UPDATE_PUBLISHED = false)
    (h3 : isTypeTag (getPath a ["type"]) activities.COLLECTIVE_EXPENSE_CREATED = false) :
    getPath (sanitizeActivity a) ["data"] = some (Value.vobj []) := by
  simp only [sanitizeActivity, getPath_clean_type, h1, h2, h3, Bool.false_eq_true, if_false]
  exact getPath_setPath_same _ _ _ (isObjV_pick _ _) (by simp)

/-- C6: the sanitized activity has no top-level key other than createdAt,
id, type, CollectiveId and data; every other field of the input is absent
from the output. -/
theorem sanitizeActivity_toplevel_keys (a : Value) (k : String)
    (hk : k ∉ ["createdAt", "id", "type", "CollectiveId", "data"]) :
    getPath (sanitizeActivity a) [k] = none := by
  have h1 : k ≠ "createdAt" := fun he => hk (by simp [he])
  have h2 : k ≠ "id" := fun he => hk (by simp [he])
  have h3 : k ≠ "type" := fun he => hk (by simp [he])
  have h4 : k ≠ "CollectiveId" := fun he => hk (by simp [he])
  have h5 : k ≠ "data" := fun he => hk (by simp [he])
  simp only [sanitizeActivity]
  rw [getPath_setPath_disj ["data"] [k] _ _ (pathDisjoint_singleton k "data" h5)]
  have hps : ((["createdAt", "id", "type", "CollectiveId"] : List String).map toPath) =
      [["createdAt"], ["id"], ["type"], ["CollectiveId"]] := by decide
  rw [hps]
  apply getPath_pick_disj a _ [k] (by simp)
  intro q hq
  rcases List.mem_cons.mp hq with rfl | hq
  · exact pathDisjoint_singleton k "createdAt" h1
  rcases List.mem_cons.mp hq with rfl | hq
  · exact pathDisjoint_singleton k "id" h2
  rcases List.mem_cons.mp hq with rfl | hq
  · exact pathDisjoint_singleton k "type" h3
  rcases List.mem_cons.mp hq with rfl | hq
  · exact pathDisjoint_singleton k "CollectiveId" h4
  · exact absurd hq (List.not_mem_nil q)

/-! Theorems about the Account resolvers. -/

theorem ordersQueryWhere_base (collective : Collective) (args : OrdersArgs)
    (tiers : List Tier) (w : OrderWhere)
    (h : ordersQueryWhere collective args tiers = Except.ok w) :
    ordersBaseWhere collective args = Except.ok w.base := by
  unfold ordersQueryWhere at h
  cases hb : ordersBaseWhere collective args with
  | error e => rw [hb] at h; exact absurd h (by simp)
  | ok base =>
    rw [hb] at h
    cases ht : tierIdLookup collective args tiers with
    | error e => rw [ht] at h; exact absurd h (by simp)
    | ok tid =>
      rw [ht] at h
      simp only [Except.ok.injEq] at h
      rw [← h]

/-- C1: when both `sent` and `received` are true the orders resolver
queries orders whose owning or originating collective is the account;
with only `sent` it queries orders originated by the account; with only
`received` it queries orders owned by the account. -/
theorem accountOrders_sent_received_where (collective : Collective) (args : OrdersArgs)
    (tiers : List Tier) (w : OrderWhere) (o : Order)
    (h : ordersQueryWhere collective args tiers = Except.ok w) :
    (args.sent = true → args.received = true →
      OrderBaseWhere.matches w.base o =
        (o.CollectiveId == collective.id || o.FromCollectiveId == collective.id)) ∧
    (args.sent = true → args.received = false →
      OrderBaseWhere.matches w.base o = (o.FromCollectiveId == collective.id)) ∧
    (args.sent = false → args.received = true →
      OrderBaseWhere.matches w.base o = (o.CollectiveId == collective.id)) := by
  have hb := ordersQueryWhere_base collective args tiers w h
  refine ⟨?_, ?_, ?_⟩ <;> intro hs hr <;>
    (unfold ordersBaseWhere at hb; rw [hs, hr] at hb; simp at hb; rw [← hb]; rfl)

/-- C1 witness: with the default arguments (both true) the sample order,
originated by the sample collective, matches the built filter. -/
theorem accountOrders_sent_received_where_witness :
    (true = true → true = true →
      OrderBaseWhere.matches (OrderBaseWhere.orClause 1 1) sampleOrder =
        (sampleOrder.CollectiveId == 1 || sampleOrder.FromCollectiveId == 1)) ∧
    (true = true → true = false →
      OrderBaseWhere.matches (OrderBaseWhere.orClause 1 1) sampleOrder =
        (sampleOrder.FromCollectiveId == 1)) ∧
    (true = false → true = true →
      OrderBaseWhere.matches (OrderBaseWhere.orClause 1 1) sampleOrder =
        (sampleOrder.CollectiveId == 1)) :=
  accountOrders_sent_received_where sampleCollective sampleOrdersArgs []
    { base := OrderBaseWhere.orClause 1 1 } sampleOrder rfl

/-- C2: an orders query with `sent = false` and `received = false` fails
with a NotFound error, for every store, so no store query is issued. -/
theorem accountOrders_neither_fails (collective : Collective) (args : OrdersArgs)
    (tiers : List Tier) (db : List Order)
    (hs : args.sent = false) (hr : args.received = false) :
    accountOrdersResolve collective args tiers db =
      Except.error (ResolverError.notFound
        "At least one of `sent` or `received` needs to be true.") := by
  unfold accountOrdersResolve ordersQueryWhere ordersBaseWhere
  rw [hs, hr]
  simp

/-- C2 witness: the failure at a concrete account and arguments. -/
theorem accountOrders_neither_fails_witness :
    accountOrdersResolve sampleCollective
      { sent := false, received := false } [] [] =
      Except.error (ResolverError.notFound
        "At least one of `sent` or `received` needs to be true.") :=
  accountOrders_neither_fails sampleCollective { sent := false, received := false }
    [] [] rfl rfl

/-- C3: both resolvers return a page whose `limit` and `offset` equal the
call's `limit` and `offset` arguments. -/
theorem resolvers_page_limit_offset (collective : Collective) (targs : TransactionsArgs)
    (tdb : List Transaction) (oargs : OrdersArgs) (tiers : List Tier) (odb : List Order) :
    ((accountTransactionsResolve collective targs tdb).limit = targs.limit ∧
     (accountTransactionsResolve collective targs tdb).offset = targs.offset) ∧
    (∀ page, accountOrdersResolve collective oargs tiers odb = Except.ok page →
      page.limit = oargs.limit ∧ page.offset = oargs.offset) := by
  constructor
  · exact ⟨rfl, rfl⟩
  · intro page h
    unfold accountOrdersResolve at h
    cases hw : ordersQueryWhere collective oargs tiers with
    | error e => rw [hw] at h; exact absurd h (by simp)
    | ok w =>
      rw [hw] at h
      simp only [Except.ok.injEq] at h
      rw [← h]
      exact ⟨rfl, rfl⟩

/-- C3 witness: concrete pages carry the argument limit and offset. -/
theorem resolvers_page_limit_offset_witness :
    ((accountTransactionsResolve sampleCollective sampleTransactionsArgs []).limit =
        sampleTransactionsArgs.limit ∧
     (accountTransactionsResolve sampleCollective sampleTransactionsArgs []).offset =
        sampleTransactionsArgs.offset) ∧
    (({ limit := 100, offset := 0, totalCount := 0, items := [] } : OrderPage).limit =
        sampleOrdersArgs.limit ∧
     ({ limit := 100, offset := 0, totalCount := 0, items := [] } : OrderPage).offset =
        sampleOrdersArgs.offset) :=
  ⟨(resolvers_page_limit_offset sampleCollective sampleTransactionsArgs []
      sampleOrdersArgs [] []).1,
   (resolvers_page_limit_offset sampleCollective sampleTransactionsArgs []
      sampleOrdersArgs [] []).2
     { limit := 100, offset := 0, totalCount := 0, items := [] } rfl⟩

/-- C10: the `updatedAt` field resolver returns `createdAt` when the
column is null or absent, and the stored `updatedAt` unchanged when it is
present. -/
theorem accountFields_updatedAt (c : Collective) :
    (c.updatedAt = none → updatedAtResolve c = c.createdAt) ∧
    (∀ d, c.updatedAt = some d → updatedAtResolve c = d) := by
  constructor
  · intro h
    unfold updatedAtResolve
    rw [h]
  · intro d h
    unfold updatedAtResolve
    rw [h]

/-- C10 witness: at the sample collective, whose `updatedAt` is null, the
resolver returns its `createdAt`. -/
theorem accountFields_updatedAt_witness :
    updatedAtResolve sampleCollective = sampleCollective.createdAt :=
  (accountFields_updatedAt sampleCollective).1 rfl

/-- C7 counterexample: supplying the empty string as `tierSlug` is falsy
in the truthiness check, so the lookup is skipped and the query succeeds
even though no tier of the account has that slug. -/
theorem accountOrders_empty_tierSlug_ok :
    accountOrdersResolve sampleCollective
      { tierSlug := some "" } [] [] =
      Except.ok { limit := 100, offset := 0, totalCount := 0, items := [] } ∧
    ¬ ∃ m, accountOrdersResolve sampleCollective
      { tierSlug := some "" } [] [] =
      Except.error (ResolverError.notFound m) := by
  refine ⟨rfl, ?_⟩
  rintro ⟨m, hm⟩
  exact Except.noConfusion hm

/-- C7 (amended): an orders query that supplies a nonempty `tierSlug` not
resolvable (after lowercasing) to a tier row of the account fails with a
NotFound error. -/
theorem accountOrders_unknown_tierSlug_fails (collective : Collective) (args : OrdersArgs)
    (tiers : List Tier) (db : List Order) (slug : String)
    (hslug : args.tierSlug = some slug) (hne : slug ≠ "")
    (hfind : tiers.find?
      (fun t => t.CollectiveId == collective.id && t.slug == strToLower slug) = none) :
    ∃ m, accountOrdersResolve collective args tiers db =
      Except.error (ResolverError.notFound m) := by
  have htier : tierIdLookup collective args tiers =
      Except.error (ResolverError.notFound "TierSlug Not Found") := by
    unfold tierIdLookup
    simp only [hslug]
    rw [if_pos hne, hfind]
  unfold accountOrdersResolve ordersQueryWhere
  cases hb : ordersBaseWhere collective args with
  | error e =>
    cases e with
    | notFound m => exact ⟨m, rfl⟩
  | ok base =>
    rw [htier]
    exact ⟨"TierSlug Not Found", rfl⟩

/-- C7 witness: a nonempty slug over an empty tier store fails. -/
theorem accountOrders_unknown_tierSlug_fails_witness :
    ∃ m, accountOrdersResolve sampleCollective
      { tierSlug := some "gold" } [] [] =
      Except.error (ResolverError.notFound m) :=
  accountOrders_unknown_tierSlug_fails sampleCollective { tierSlug := some "gold" }
    [] [] "gold" rfl (by decide) rfl

theorem tierIdLookup_toLower (collective : Collective) (a1 a2 : OrdersArgs)
    (tiers : List Tier) (s1 s2 : String)
    (hs1 : a1.tierSlug = some s1) (hs2 : a2.tierSlug = some s2)
    (h1 : s1 ≠ "") (h2 : s2 ≠ "") (h12 : strToLower s1 = strToLower s2) :
    tierIdLookup collective a1 tiers = tierIdLookup collective a2 tiers := by
  unfold tierIdLookup
  simp only [hs1, hs2]
  rw [if_pos h1, if_pos h2, h12]

theorem ordersQueryWhere_congr (collective : Collective) (a1 a2 : OrdersArgs)
    (T1 T2 : List Tier)
    (hb : ordersBaseWhere collective a1 = ordersBaseWhere collective a2)
    (hs : ordersStatusFilter a1 = ordersStatusFilter a2)
    (ht : tierIdLookup collective a1 T1 = tierIdLookup collective a2 T2) :
    ordersQueryWhere collective a1 T1 = ordersQueryWhere collective a2 T2 := by
  unfold ordersQueryWhere
  simp only [hb, hs, ht]

theorem accountOrdersResolve_congr (collective : Collective) (a1 a2 : OrdersArgs)
    (T1 T2 : List Tier) (db : List Order)
    (hw : ordersQueryWhere collective a1 T1 = ordersQueryWhere collective a2 T2)
    (hl : a1.limit = a2.limit) (ho : a1.offset = a2.offset)
    (hob : a1.orderBy = a2.orderBy) :
    accountOrdersResolve collective a1 T1 db = accountOrdersResolve collective a2 T2 db := by
  unfold accountOrdersResolve
  simp only [hw, hl, ho, hob]

theorem find?_filter_subsume {α : Type} (l : List α) (p q : α → Bool)
    (himp : ∀ a, p a = true → q a = true) :
    (l.filter q).find? p = l.find? p := by
  induction l with
  | nil => rfl
  | cons a l ih =>
    cases hq : q a with
    | true =>
      cases hp : p a with
      | true => simp [List.filter_cons, List.find?_cons, hq, hp]
      | false => simp [List.filter_cons, List.find?_cons, hq, hp, ih]
    | false =>
      have hp : p a = false := by
        cases hpa : p a with
        | false => rfl
        | true => rw [himp a hpa] at hq; exact absurd hq (by simp)
      simp [List.filter_cons, List.find?_cons, hq, hp, ih]

theorem tierIdLookup_scoped (collective : Collective) (args : OrdersArgs)
    (tiers : List Tier) :
    tierIdLookup collective args
      (tiers.filter (fun t => t.CollectiveId == collective.id)) =
      tierIdLookup collective args tiers := by
  unfold tierIdLookup
  cases hts : args.tierSlug with
  | none => rfl
  | some slug =>
    simp only
    rw [find?_filter_subsume tiers
      (fun t => t.CollectiveId == collective.id && t.slug == strToLower slug)
      (fun t => t.CollectiveId == collective.id)
      (fun t ht => (Bool.and_eq_true _ _ |>.mp ht).1)]

/-- C9: the orders `tierSlug` is lowercased before the lookup, so two
slugs differing only in case resolve identically, and the lookup is
scoped to the account, so restricting the tier store to the account's own
tiers never changes the result. -/
theorem accountOrders_tierSlug_lowercase_scoped (collective : Collective)
    (args : OrdersArgs) (tiers : List Tier) (db : List Order) (s1 s2 : String)
    (h1 : s1 ≠ "") (h2 : s2 ≠ "") (h12 : strToLower s1 = strToLower s2) :
    (accountOrdersResolve collective { args with tierSlug := some s1 } tiers db =
      accountOrdersResolve collective { args with tierSlug := some s2 } tiers db) ∧
    (accountOrdersResolve collective args
      (tiers.filter (fun t => t.CollectiveId == collective.id)) db =
      accountOrdersResolve collective args tiers db) := by
  constructor
  · exact accountOrdersResolve_congr collective _ _ tiers tiers db
      (ordersQueryWhere_congr collective _ _ tiers tiers rfl rfl
        (tierIdLookup_toLower collective _ _ tiers s1 s2 rfl rfl h1 h2 h12))
      rfl rfl rfl
  · exact accountOrdersResolve_congr collective args args _ tiers db
      (ordersQueryWhere_congr collective args args _ tiers rfl rfl
        (tierIdLookup_scoped collective args tiers))
      rfl rfl rfl

/-- C9 witness: at a concrete account, slug case is irrelevant and
restricting the tier store to the account's tiers is invisible. -/
theorem accountOrders_tierSlug_lowercase_scoped_witness :
    (accountOrdersResolve sampleCollective
        { sampleOrdersArgs with tierSlug := some "Gold" }
        [{ id := 4, CollectiveId := 1, slug := "gold" }] [] =
      accountOrdersResolve sampleCollective
        { sampleOrdersArgs with tierSlug := some "gOLD" }
        [{ id := 4, CollectiveId := 1, slug := "gold" }] []) ∧
    (accountOrdersResolve sampleCollective sampleOrdersArgs
        (List.filter (fun t => t.CollectiveId == sampleCollective.id)
          [{ id := 4, CollectiveId := 1, slug := "gold" }]) [] =
      accountOrdersResolve sampleCollective sampleOrdersArgs
        [{ id := 4, CollectiveId := 1, slug := "gold" }] []) :=
  accountOrders_tierSlug_lowercase_scoped sampleCollective sampleOrdersArgs
    [{ id := 4, CollectiveId := 1, slug := "gold" }] [] "Gold" "gOLD"
    (by decide) (by decide) (by decide)

/-- C8 (modelled from the spec): creating a LegalDocument whose host and
collective references name existing collective rows succeeds and the
record becomes queryable; creation with either reference missing fails
with a validation error. -/
theorem legalDocument_create_contract (db : ModelsDB) (doc : LegalDocumentValues) :
    (∀ hostId collectiveId, doc.HostCollectiveId = some hostId →
      doc.CollectiveId = some collectiveId →
      db.collectives.any (fun c => c.id == hostId) = true →
      db.collectives.any (fun c => c.id == collectiveId) = true →
      ∃ db', LegalDocument.create db doc = Except.ok db' ∧
        ({ HostCollectiveId := hostId, CollectiveId := collectiveId,
           year := doc.year } : LegalDocumentRow) ∈ db'.legalDocuments) ∧
    ((doc.HostCollectiveId = none ∨ doc.CollectiveId = none) →
      ∃ m, LegalDocument.create db doc =
        Except.error (SequelizeValidationError.validationError m)) := by
  constructor
  · intro hostId collectiveId hh hc hah hac
    unfold LegalDocument.create
    simp only [hh, hc, hah, hac, Bool.and_self, if_true]
    refine ⟨_, rfl, ?_⟩
    simp
  · intro h
    unfold LegalDocument.create
    rcases h with h | h
    · rw [h]
      exact ⟨"notNull violation", rfl⟩
    · rw [h]
      cases doc.HostCollectiveId with
      | none => exact ⟨"notNull violation", rfl⟩
      | some hostId => exact ⟨"notNull violation", rfl⟩

/-- C8 witness: creation succeeds on the sample store and fails when the
host reference is missing. -/
theorem legalDocument_create_contract_witness :
    (∃ db', LegalDocument.create sampleDB sampleDoc = Except.ok db' ∧
      ({ HostCollectiveId := 1, CollectiveId := 2,
         year := "2019" } : LegalDocumentRow) ∈ db'.legalDocuments) ∧
    (∃ m, LegalDocument.create sampleDB { year := "2019" } =
      Except.error (SequelizeValidationError.validationError m)) :=
  ⟨(legalDocument_create_contract sampleDB sampleDoc).1 1 2 rfl rfl rfl rfl,
   (legalDocument_create_contract sampleDB { year := "2019" }).2 (Or.inl rfl)⟩

/-- C4 witness: a concrete transaction-created activity keeps exactly its
allowlisted data fields. -/
theorem sanitizeActivity_known_types_exact_witness :
    ∃ d, getPath (sanitizeActivity sampleActivity) ["data"] = some d ∧
      (∀ s ∈ transactionCreatedPickList, getPath d (toPath s) =
        getPath (activityDataField sampleActivity) (toPath s)) ∧
      (∀ p, p ≠ [] →
        (∀ s ∈ transactionCreatedPickList, pathDisjoint p (toPath s) = true) →
        getPath d p = none) :=
  sanitizeActivity_known_types_exact sampleActivity
    activities.COLLECTIVE_TRANSACTION_CREATED transactionCreatedPickList
    (by decide) rfl

/-- C5 witness: an unknown activity type yields an empty data object. -/
theorem sanitizeActivity_unknown_type_empty_witness :
    getPath (sanitizeActivity
      (Value.vobj [("type", Value.vstr "collective.member.created")]))
      ["data"] = some (Value.vobj []) :=
  sanitizeActivity_unknown_type_empty
    (Value.vobj [("type", Value.vstr "collective.member.created")]) rfl rfl rfl

/-- C6 witness: the raw-database `UserId` field of the sample activity is
absent from the sanitized output. -/
theorem sanitizeActivity_toplevel_keys_witness :
    getPath (sanitizeActivity sampleActivity) ["UserId"] = none :=
  sanitizeActivity_toplevel_keys sampleActivity "UserId" (by decide)
